import Mathlib

/-!
Verification development for the pyjsparser repository: a shallow embedding of
the ECMAScript 5 lexer (src/pyjsparser/lexer.py), AST node model
(src/pyjsparser/ast.py) and yacc grammar with its semantic actions
(src/pyjsparser/parser.py).

Modelling notes, faithful to the source:

- Tokens are modelled after ply.lex LexToken with the fields the code uses:
  type, value, lineno, lexpos.  The rule t_LINE_TERMINATOR mutates only the
  token's own lineno attribute (t.lineno += len(t.value)) and never the
  lexer's lineno, so the lexer's running line counter stays at its initial
  value 1; every token therefore carries lineno 1 except LINE_TERMINATOR
  tokens themselves.
- ply.lex matches function rules first in definition order (t_INCR_NO_LT,
  t_DECR_NO_LT, t_LINE_TERMINATOR, t_ID), then string rules by decreasing
  pattern length; rawNextCore reproduces that dispatch, with the punctuator
  table ordered by decreasing lexeme length.
- The grammar engine is never constructed: the productions use the
  symbols COMMENT, REGEX, GET and SET, which are neither declared tokens
  (GET and SET are commented out of the keywords tuple; the lexer has
  LINE_COMMENT / BLOCK_COMMENT and RE_BODY / RE_END, no COMMENT or REGEX)
  nor defined by rules, so ply.yacc.yacc in Parser.__init__ reports each
  and raises YaccError, before any input is read.  parse models
  Parser() followed by Parser.parse and therefore errors on every input;
  parseAsBuilt models the written productions and semantic actions for
  analysing what the grammar says.  Relatedly, the lexer's exclusive regex
  state is never entered, because Lexer.scan_regexp is never invoked
  anywhere in parser.py.
- Lexer.token() is the only token source the grammar sees; it is modelled by
  emitTokens, which skips LINE_TERMINATOR / LINE_COMMENT / BLOCK_COMMENT
  tokens, emits a synthetic SEMI after continue / break / return / throw
  (rule A), and records, for each delivered token, the lexer's prev_token at
  delivery time (used by Lexer.prev_line_terminator during error recovery).
- ply.yacc error recovery: p_error either raises SyntaxError or calls
  errok() and returns a SEMI token which becomes the new lookahead in the
  same parser state (the error token is never shifted, so the
  auto_semicolon productions are dead and recovery succeeds exactly where a
  SEMI terminal can be shifted).  expectSemi and failAt model the two
  outcomes.
- Python semantic actions that leave p[0] unassigned produce None,
  modelled as Val.none; actions that index past the production's slice
  raise IndexError (ParseError.indexError), and the DefaultClause action
  calls the DefaultCase constructor with a keyword argument it does not
  accept, raising TypeError (ParseError.typeError).
-/

namespace PyJsParser

/-- Model of ply.lex.LexToken restricted to the fields pyjsparser uses. -/
structure LexToken where
  type : String
  value : String
  lineno : Nat
  lexpos : Nat
  deriving Repr, DecidableEq

/-- Lexer.keywords, paired with the lowercase spelling as built by
Lexer._prepare_tokens (keywords_map maps the lowercase source word to the
uppercase token type). -/
def keywordsMap : List (String × String) :=
  [("function", "FUNCTION"), ("var", "VAR"), ("continue", "CONTINUE"),
   ("return", "RETURN"), ("if", "IF"), ("else", "ELSE"), ("break", "BREAK"),
   ("true", "TRUE"), ("false", "FALSE"), ("this", "THIS"), ("new", "NEW"),
   ("instanceof", "INSTANCEOF"), ("in", "IN"), ("delete", "DELETE"),
   ("typeof", "TYPEOF"), ("void", "VOID"), ("null", "NULL"),
   ("while", "WHILE"), ("do", "DO"), ("for", "FOR"), ("try", "TRY"),
   ("throw", "THROW"), ("catch", "CATCH"), ("default", "DEFAULT"),
   ("finally", "FINALLY"), ("case", "CASE"), ("with", "WITH"),
   ("debugger", "DEBUGGER"), ("switch", "SWITCH")]

/-- keywords_map.get(value, "ID") from t_ID: look the identifier up in the
keyword table, falling back to the token type ID. -/
def lookupKw : List (String × String) → String → String
  | [], _ => "ID"
  | (k, v) :: rest, s => if s == k then v else lookupKw rest s

/-- Punctuator table of the string token rules, ordered by decreasing
pattern length as ply.lex orders string rules when building its master
regular expression. -/
def punctuators : List (String × String) :=
  [(">>>=", "URSHIFT_EQUALS"),
   ("===", "EQT"), ("!==", "NET"), (">>>", "URSHIFT"),
   ("<<=", "LSHIFT_EQUALS"), (">>=", "RSHIFT_EQUALS"),
   ("==", "EQ"), ("!=", "NE"), ("<=", "LE"), (">=", "GE"),
   ("++", "INCR"), ("--", "DECR"), ("<<", "LSHIFT"), (">>", "RSHIFT"),
   ("&&", "LAND"), ("||", "LOR"), ("+=", "PLUS_EQUALS"),
   ("-=", "MINUS_EQUALS"), ("*=", "TIMES_EQUALS"), ("/=", "DIVIDE_EQUALS"),
   ("%=", "MOD_EQUALS"), ("&=", "AND_EQUALS"), ("|=", "OR_EQUALS"),
   ("^=", "XOR_EQUALS"),
   ("\x7b", "LBRACE"), ("\x7d", "RBRACE"), ("(", "LPAREN"), (")", "RPAREN"),
   ("[", "LBRACKET"), ("]", "RBRACKET"), (".", "PERIOD"), (";", "SEMI"),
   (",", "COMMA"), ("<", "LT"), (">", "GT"), ("+", "PLUS"), ("-", "MINUS"),
   ("*", "TIMES"), ("/", "DIVIDE"), ("%", "MOD"), ("&", "AND"), ("|", "OR"),
   ("^", "XOR"), ("!", "LNOT"), ("~", "NOT"), ("?", "CONDOP"),
   (":", "COLON"), ("=", "EQUALS")]

/-- Characters of t_ignore: space and tab are skipped between tokens. -/
def isIgnoreChar (c : Char) : Bool := c == ' ' || c == '\t'

/-- Line terminator characters as used by the newline-related rules. -/
def isNewlineChar (c : Char) : Bool := c == '\n' || c == '\r'

/-- Python regex whitespace class (ASCII part), used by the backslash-s in
t_INCR_NO_LT and t_DECR_NO_LT. -/
def isPySpace (c : Char) : Bool :=
  c == ' ' || c == '\t' || c == '\n' || c == '\r' || c == '\x0b' || c == '\x0c'

/-- First character of the identifier regex. -/
def isIdentStart (c : Char) : Bool := c.isAlpha || c == '_' || c == '$'

/-- Continuation character of the identifier regex. -/
def isIdentChar (c : Char) : Bool := c.isAlphanum || c == '_' || c == '$'

/-- Hexadecimal digit, for the 0x number alternative. -/
def isHexDigitCh (c : Char) : Bool :=
  c.isDigit || ('a' ≤ c && c ≤ 'f') || ('A' ≤ c && c ≤ 'F')

/-- Single characters allowed after a backslash by the string-literal
escape alternative (dash, letters, backslash, question mark, quotes).  The
hex and unicode escape alternatives of t_STRING_LITERAL are listed after
this one in the pattern and x and u are letters, so those alternatives can
never fire first. -/
def stringEscapeOk (c : Char) : Bool :=
  c == '-' || c.isAlpha || c == '\\' || c == '?' || c == '\'' || c == '"'

/-- Body scan of t_STRING_LITERAL after the opening quote; returns the
consumed characters including the closing quote, and the rest.  Fails (like
the regex) on a line terminator or an escape outside the allowed set. -/
def scanStringLit (quote : Char) : List Char → Option (List Char × List Char)
  | [] => Option.none
  | c :: rest =>
    if c == quote then some ([c], rest)
    else if c == '\n' || c == '\r' then Option.none
    else if c == '\\' then
      match rest with
      | d :: rest' =>
        if stringEscapeOk d then
          match scanStringLit quote rest' with
          | some (b, r) => some (c :: d :: b, r)
          | Option.none => Option.none
        else Option.none
      | [] => Option.none
    else
      match scanStringLit quote rest with
      | some (b, r) => some (c :: b, r)
      | Option.none => Option.none

/-- Body scan of t_BLOCK_COMMENT after the opening slash-star: consume up
to and including the first star-slash. -/
def scanBlockBody : List Char → Option (List Char × List Char)
  | '*' :: '/' :: rest => some (['*', '/'], rest)
  | c :: rest =>
    match scanBlockBody rest with
    | some (b, r) => some (c :: b, r)
    | Option.none => Option.none
  | [] => Option.none

/-- Number alternative 1: 0x or 0X followed by hex digits. -/
def scanHexNum : List Char → Option (List Char × List Char)
  | '0' :: x :: rest =>
    if x == 'x' || x == 'X' then
      let ds := rest.takeWhile isHexDigitCh
      if ds.isEmpty then Option.none
      else some ('0' :: x :: ds, rest.dropWhile isHexDigitCh)
    else Option.none
  | _ => Option.none

/-- Number alternative 2: digits, letter e, digits. -/
def scanExpInt (l : List Char) : Option (List Char × List Char) :=
  let ds := l.takeWhile Char.isDigit
  if ds.isEmpty then Option.none
  else
    match l.dropWhile Char.isDigit with
    | 'e' :: rest =>
      let es := rest.takeWhile Char.isDigit
      if es.isEmpty then Option.none
      else some (ds ++ 'e' :: es, rest.dropWhile Char.isDigit)
    | _ => Option.none

/-- The optional exponent-or-digits group of number alternative 3: an
optional letter e followed by digits, or digits alone, or nothing. -/
def scanOptExpPart (l : List Char) : List Char × List Char :=
  match l with
  | 'e' :: rest =>
    let es := rest.takeWhile Char.isDigit
    if es.isEmpty then ([], l) else ('e' :: es, rest.dropWhile Char.isDigit)
  | _ =>
    let ds := l.takeWhile Char.isDigit
    (ds, l.dropWhile Char.isDigit)

/-- Number alternative 3: optional digits, a dot, digits, optional
exponent part. -/
def scanDotFrac (l : List Char) : Option (List Char × List Char) :=
  let ds := l.takeWhile Char.isDigit
  match l.dropWhile Char.isDigit with
  | '.' :: rest =>
    let fs := rest.takeWhile Char.isDigit
    if fs.isEmpty then Option.none
    else
      let (ep, r) := scanOptExpPart (rest.dropWhile Char.isDigit)
      some (ds ++ '.' :: (fs ++ ep), r)
  | _ => Option.none

/-- Number alternative 4: digits, a dot, then a required optional-e-digits
group. -/
def scanIntDot (l : List Char) : Option (List Char × List Char) :=
  let ds := l.takeWhile Char.isDigit
  if ds.isEmpty then Option.none
  else
    match l.dropWhile Char.isDigit with
    | '.' :: rest =>
      match rest with
      | 'e' :: r2 =>
        let es := r2.takeWhile Char.isDigit
        if es.isEmpty then Option.none
        else some (ds ++ '.' :: 'e' :: es, r2.dropWhile Char.isDigit)
      | _ =>
        let es := rest.takeWhile Char.isDigit
        if es.isEmpty then Option.none
        else some (ds ++ '.' :: es, rest.dropWhile Char.isDigit)
    | _ => Option.none

/-- Number alternative 5: plain digits. -/
def scanInt (l : List Char) : Option (List Char × List Char) :=
  let ds := l.takeWhile Char.isDigit
  if ds.isEmpty then Option.none else some (ds, l.dropWhile Char.isDigit)

/-- t_NUMBER_LITERAL: the five regex alternatives tried in pattern order,
first match wins. -/
def scanNumber (l : List Char) : Option (List Char × List Char) :=
  (scanHexNum l).orElse fun _ =>
  (scanExpInt l).orElse fun _ =>
  (scanDotFrac l).orElse fun _ =>
  (scanIntDot l).orElse fun _ => scanInt l

/-- Try the punctuator table in order; return lexeme, type and rest. -/
def findPunct : List (String × String) → List Char → Option (String × String × List Char)
  | [], _ => Option.none
  | (lex, ty) :: rest, l =>
    if l.take lex.data.length == lex.data then some (lex, ty, l.drop lex.data.length)
    else findPunct rest l

/-- Errors of the whole pipeline.  lexError is the TypeError raised by
t_error; syntaxError the SyntaxError raised by Parser.p_error (value,
lineno, lexpos of the reported token); yaccError is the ply.yacc.YaccError
raised by ply.yacc.yacc during Parser.__init__ (it carries only a message,
no token text, line or position); indexError and typeError model the
Python exceptions escaping from buggy semantic actions; outOfFuel is the
bookkeeping case of the fuel-indexed recursion and is never hit at the
fuel budgets used. -/
inductive ParseError where
  | lexError (text : String) (lineno : Nat)
  | syntaxError (value : String) (lineno : Nat) (lexpos : Nat)
  | yaccError (msg : String)
  | invalidRegex
  | indexError
  | typeError
  | outOfFuel
  deriving Repr, DecidableEq

/-- One raw lexer step at a position where ignore characters have already
been skipped: classify the next token following ply.lex rule order
(function rules t_INCR_NO_LT, t_DECR_NO_LT, t_LINE_TERMINATOR, t_ID first,
then string rules by decreasing pattern length).  Returns the token, the
remaining characters and the next position, or Option.none at end of
input. -/
def rawNextCore (input : List Char) (pos : Nat) :
    Except ParseError (Option (LexToken × List Char × Nat)) :=
  match input with
  | [] => .ok Option.none
  | c :: rest =>
    if isNewlineChar c then
      -- t_INCR_NO_LT, t_DECR_NO_LT: newline run, optional whitespace, then
      -- a double plus or double minus, collapsed to a token whose value is
      -- just the operator; otherwise t_LINE_TERMINATOR with the newline
      -- run (its action bumps only the token's own lineno).
      let nls := (c :: rest).takeWhile isNewlineChar
      let r1 := (c :: rest).dropWhile isNewlineChar
      let sp := r1.takeWhile isPySpace
      let r2 := r1.dropWhile isPySpace
      match r2 with
      | '+' :: '+' :: r3 =>
        .ok (some ({ type := "INCR_NO_LT", value := "++", lineno := 1, lexpos := pos }, r3, pos + nls.length + sp.length + 2))
      | '-' :: '-' :: r3 =>
        .ok (some ({ type := "DECR_NO_LT", value := "--", lineno := 1, lexpos := pos }, r3, pos + nls.length + sp.length + 2))
      | _ =>
        .ok (some ({ type := "LINE_TERMINATOR", value := String.mk nls, lineno := 1 + nls.length, lexpos := pos }, r1, pos + nls.length))
    else if isIdentStart c then
      let w := (c :: rest).takeWhile isIdentChar
      .ok (some ({ type := lookupKw keywordsMap (String.mk w), value := String.mk w, lineno := 1, lexpos := pos }, (c :: rest).dropWhile isIdentChar, pos + w.length))
    else if c == '"' || c == '\'' then
      match scanStringLit c rest with
      | some (b, r) =>
        .ok (some ({ type := "STRING_LITERAL", value := String.mk (c :: b), lineno := 1, lexpos := pos }, r, pos + 1 + b.length))
      | Option.none =>
        .error (.lexError (String.mk ((c :: rest).take 20)) 1)
    else if c.isDigit || (c == '.' && (match rest with
        | d :: _ => d.isDigit
        | [] => false)) then
      match scanNumber (c :: rest) with
      | some (ds, r) =>
        .ok (some ({ type := "NUMBER_LITERAL", value := String.mk ds, lineno := 1, lexpos := pos }, r, pos + ds.length))
      | Option.none => .error (.lexError (String.mk ((c :: rest).take 20)) 1)
    else if c == '/' then
      match rest with
      | '*' :: r1 =>
        match scanBlockBody r1 with
        | some (b, r) =>
          .ok (some ({ type := "BLOCK_COMMENT", value := String.mk ('/' :: '*' :: b), lineno := 1, lexpos := pos }, r, pos + 2 + b.length))
        | Option.none =>
          -- no closing star-slash: the block comment pattern fails and the
          -- slash matches as a punctuator below
          match findPunct punctuators (c :: rest) with
          | some (lex, ty, r) =>
            .ok (some ({ type := ty, value := lex, lineno := 1, lexpos := pos }, r, pos + lex.data.length))
          | Option.none => .error (.lexError (String.mk ((c :: rest).take 20)) 1)
      | '/' :: r1 =>
        let body := r1.takeWhile (fun ch => !isNewlineChar ch)
        .ok (some ({ type := "LINE_COMMENT", value := String.mk ('/' :: '/' :: body), lineno := 1, lexpos := pos }, r1.dropWhile (fun ch => !isNewlineChar ch), pos + 2 + body.length))
      | _ =>
        match findPunct punctuators (c :: rest) with
        | some (lex, ty, r) =>
          .ok (some ({ type := ty, value := lex, lineno := 1, lexpos := pos }, r, pos + lex.data.length))
        | Option.none => .error (.lexError (String.mk ((c :: rest).take 20)) 1)
    else
      match findPunct punctuators (c :: rest) with
      | some (lex, ty, r) =>
        .ok (some ({ type := ty, value := lex, lineno := 1, lexpos := pos },
          r, pos + lex.data.length))
      | Option.none => .error (.lexError (String.mk ((c :: rest).take 20)) 1)

/-- One raw lexer step: skip t_ignore characters, then classify. -/
def rawNext (input : List Char) (pos : Nat) :
    Except ParseError (Option (LexToken × List Char × Nat)) :=
  rawNextCore (input.dropWhile isIgnoreChar)
    (pos + (input.takeWhile isIgnoreChar).length)

/-- Run the raw lexer to the end of input, collecting every raw token
(line terminators and comments included). -/
def tokenizeAux : Nat → List Char → Nat → Except ParseError (List LexToken)
  | 0, _, _ => .error .outOfFuel
  | Nat.succ fuel, input, pos =>
    match rawNext input pos with
    | .error e => .error e
    | .ok Option.none => .ok []
    | .ok (some (t, rest, pos')) =>
      match tokenizeAux fuel rest pos' with
      | .error e => .error e
      | .ok ts => .ok (t :: ts)

/-- Raw token stream of a source string. -/
def tokenize (s : String) : Except ParseError (List LexToken) :=
  tokenizeAux (s.data.length + 1) s.data 0

/-- Token types consumed silently inside the loop of Lexer.token. -/
def skipTypes : List String := ["LINE_TERMINATOR", "LINE_COMMENT", "BLOCK_COMMENT"]

/-- Keyword token types after which a line terminator forces a synthetic
semicolon (rule A of Lexer.token). -/
def asiPrevTypes : List String := ["CONTINUE", "BREAK", "RETURN", "THROW"]

/-- Lexer.create_semicolon_token: a synthetic SEMI carrying the position
of the replaced token, or zeros when there is none. -/
def createSemicolonToken : Option LexToken → LexToken
  | some t => { type := "SEMI", value := ";", lineno := t.lineno, lexpos := t.lexpos }
  | Option.none => { type := "SEMI", value := ";", lineno := 0, lexpos := 0 }

/-- A token as delivered by Lexer.token to the grammar, together with the
lexer's prev_token at the moment of delivery (the raw predecessor, which
is what Lexer.prev_line_terminator inspects during error recovery). -/
structure PTok where
  tok : LexToken
  prev : Option LexToken
  deriving Repr, DecidableEq

/-- Lexer.token as a stream transformer: walk the raw tokens threading
prev_token / curr_token; skip line terminators and comments; when the
previous token is continue, break, return or throw and a skippable token
arrives, deliver a synthetic SEMI in its place (rule A) and keep going. -/
def emitTokens : Option LexToken → List LexToken → List PTok
  | _, [] => []
  | Option.none, t :: rest =>
    if skipTypes.contains t.type then emitTokens (some t) rest
    else ⟨t, Option.none⟩ :: emitTokens (some t) rest
  | some p, t :: rest =>
    if skipTypes.contains t.type then
      if asiPrevTypes.contains p.type then
        ⟨createSemicolonToken (some t), some p⟩ :: emitTokens (some t) rest
      else emitTokens (some t) rest
    else ⟨t, some p⟩ :: emitTokens (some t) rest

/-- The mutable Lexer fields consulted and updated by auto_semicolon. -/
structure LexerProxyState where
  next_tokens : List LexToken
  prev_token : Option LexToken
  curr_token : Option LexToken
  deriving Repr, DecidableEq

/-- Lexer.prev_line_terminator: the previous raw token was a line
terminator. -/
def prevLineTerminator (st : LexerProxyState) : Bool :=
  match st.prev_token with
  | some p => p.type == "LINE_TERMINATOR"
  | Option.none => false

/-- Lexer.auto_semicolon: called from p_error with the offending token (or
nothing at end of input).  When end of input is reached, or the token is a
closing brace, or the previous raw token was a line terminator, the
offending token (if any) is queued for re-delivery and a synthetic SEMI is
returned; otherwise nothing is returned and p_error raises. -/
def auto_semicolon (st : LexerProxyState) (token : Option LexToken) :
    Option LexToken × LexerProxyState :=
  if token.isNone
      || (match token with | some t => t.type == "RBRACE" | Option.none => false)
      || prevLineTerminator st then
    (some (createSemicolonToken token),
      match token with
      | some t => { st with next_tokens := st.next_tokens ++ [t] }
      | Option.none => st)
  else (Option.none, st)

/-- Dynamic value model for the Python objects flowing through the yacc
semantic actions: None, strings (token values), Python lists, the tuples
built by p_VariableDeclaration, and the AST node classes of
src/pyjsparser/ast.py with exactly the constructor fields they store.
Fields that are always token text are String; the rest are Val.  The
UnaryOp field named postfix in the source is called post here. -/
inductive Val where
  | none
  | str (s : String)
  | list (xs : List Val)
  | tup (a b : Val)
  | Program (statements : Val)
  | LineComment (data : String)
  | BlockComment (data : String)
  | Identifier (name : String)
  | Number (value : String)
  | StringNode (data : String)
  | Boolean (value : String)
  | Object (properties : Val)
  | RegEx (pattern : String) (flags : String)
  | VariableDeclaration (node : Val) (expr : Val)
  | Assign (node : Val) (operator : String) (expr : Val)
  | UnaryOp (operator : String) (value : Val) (post : Bool)
  | BinOp (operator : String) (left : Val) (right : Val)
  | ElementGet (node : Val) (element : Val)
  | If (expr : Val) (tru : Val) (fls : Val)
  | Switch (expression : Val) (cases : Val) (dflt : Val)
  | Case (identifier : Val) (statements : Val)
  | For (initialisers : Val) (conditions : Val) (increments : Val) (statement : Val)
  | ForIn (item : Val) (iterator : Val) (statement : Val)
  | DoWhile (condition : Val) (statement : Val)
  | While (condition : Val) (statement : Val)
  | With (expression : Val) (statement : Val)
  | LabelledStatement (identifier : Val) (statement : Val)
  | FuncDecl (node : Val) (parameters : Val) (statements : Val)
  | FuncCall (node : Val) (arguments : Val)
  | New (identifier : Val) (arguments : Val)
  | Return (expression : Val)
  | Continue (identifier : Val)
  | Break (identifier : Val)
  | Throw (expression : Val)
  | Try (statements : Val) (catch_ : Val) (finally_ : Val)
  | Catch (identifier : Val) (statements : Val)
  | Finally (statements : Val)
  deriving Repr

/-- Python truthiness of the values that reach an x-or-y default. -/
def pyTruthy : Val → Bool
  | .none => false
  | .list xs => !xs.isEmpty
  | .str s => !s.isEmpty
  | _ => true

/-- ast.Program constructor: self.statements = statements or []. -/
def programInit (statements : Val) : Val :=
  .Program (if pyTruthy statements then statements else .list [])

/-- ast.New constructor: self.arguments = arguments or []. -/
def newInit (identifier arguments : Val) : Val :=
  .New identifier (if pyTruthy arguments then arguments else .list [])

/-- ast.Switch constructor: self.cases = cases or []. -/
def switchInit (expression cases dflt : Val) : Val :=
  .Switch expression (if pyTruthy cases then cases else .list []) dflt

/-- The rescue condition of Lexer.auto_semicolon seen from the parser, for
an offending token t: t is a closing brace, or the raw token delivered
just before t was a line terminator (end of input is handled separately
since then there is no offending token). -/
def asiCond (t : PTok) : Bool :=
  t.tok.type == "RBRACE" ||
    (match t.prev with
     | some p => p.type == "LINE_TERMINATOR"
     | Option.none => false)

/-- Outcome of an unrecoverable grammar error, following p_error plus the
ply.yacc recovery loop.  At end of input, p_error(None) returns a zeroed
synthetic SEMI which, being unusable, is reported by the second p_error
call.  An offending SEMI is reported directly (the p_error guard).  An
offending token satisfying the rescue condition is replaced by a synthetic
SEMI carrying its position; if the grammar cannot shift a SEMI either, the
second p_error call reports that SEMI.  Otherwise auto_semicolon declines
and p_error raises with the offending token itself. -/
def failAt : List PTok → ParseError
  | [] => .syntaxError ";" 0 0
  | t :: _ =>
    if t.tok.type == "SEMI" then .syntaxError ";" t.tok.lineno t.tok.lexpos
    else if asiCond t then .syntaxError ";" t.tok.lineno t.tok.lexpos
    else .syntaxError t.tok.value t.tok.lineno t.tok.lexpos

/-- Consume a statement-terminating SEMI.  A real SEMI is shifted; at end
of input, or when the offending token is a closing brace or was preceded
by a line terminator, auto_semicolon supplies a synthetic SEMI and the
offending token stays in the stream for re-delivery; otherwise the
original syntax error is surfaced. -/
def expectSemi (ts : List PTok) : Except ParseError (List PTok) :=
  match ts with
  | [] => .ok []
  | t :: rest =>
    if t.tok.type == "SEMI" then .ok rest
    else if asiCond t then .ok ts
    else .error (failAt ts)

/-- Require a terminal of the given type; on failure report per failAt. -/
def expectType (ty : String) (ts : List PTok) : Except ParseError (LexToken × List PTok) :=
  match ts with
  | t :: rest => if t.tok.type == ty then .ok (t.tok, rest) else .error (failAt ts)
  | [] => .error (failAt [])

/-- Type of the next token, used for lookahead decisions. -/
def headIs (ts : List PTok) (ty : String) : Bool :=
  match ts with
  | t :: _ => t.tok.type == ty
  | [] => false

/-- Membership test on the next token's type. -/
def headIn (ts : List PTok) (tys : List String) : Bool :=
  match ts with
  | t :: _ => tys.contains t.tok.type
  | [] => false

/-- Token types that can begin an Expression, used to resolve the
optional-expression rules (Expression_opt, ExpressionNoIn_opt) by
lookahead.  REGEX is listed because of the RegularExpressionLiteral
production, although the lexer never produces it. -/
def exprFirstTypes : List String :=
  ["ID", "NUMBER_LITERAL", "STRING_LITERAL", "TRUE", "FALSE", "NULL", "THIS",
   "FUNCTION", "NEW", "DELETE", "VOID", "TYPEOF", "INCR", "DECR",
   "INCR_NO_LT", "DECR_NO_LT", "PLUS", "MINUS", "NOT", "LNOT", "LPAREN",
   "LBRACKET", "LBRACE", "REGEX"]

/-- Prefix operators of p_UnaryExpressionCommon. -/
def unaryOpTypes : List String :=
  ["DELETE", "VOID", "TYPEOF", "INCR", "INCR_NO_LT", "DECR", "DECR_NO_LT",
   "PLUS", "MINUS", "NOT", "LNOT"]

/-- The twelve alternatives of p_AssignmentOperator. -/
def assignmentOperators : List String :=
  ["EQUALS", "TIMES_EQUALS", "DIVIDE_EQUALS", "MOD_EQUALS", "PLUS_EQUALS",
   "MINUS_EQUALS", "LSHIFT_EQUALS", "RSHIFT_EQUALS", "URSHIFT_EQUALS",
   "AND_EQUALS", "XOR_EQUALS", "OR_EQUALS"]

/-- Comment terminals expected by p_SingleLineComment (COMMENT, a terminal
no lexer rule produces) and p_MultiLineComment (BLOCK_COMMENT). -/
def isCommentType (ty : String) : Bool := ty == "COMMENT" || ty == "BLOCK_COMMENT"

/-- The three parallel rule families of the grammar: the ordinary rules,
the NoIn rules of the for-header, and the NoBF rules of the expression
statement. -/
inductive Variant where
  | plain
  | noIn
  | noBF
  deriving Repr, DecidableEq

/-- Right-operand family at the equality, bitwise and logical levels: the
ordinary rules recurse into ordinary rules; the NoIn rules into NoIn
rules; and the NoBF rules also recurse into the NoIn rules (as written in
p_EqualityExpressionNoBF and upward). -/
def rightNoIn (v : Variant) : Variant :=
  match v with
  | .plain => .plain
  | _ => .noIn

/-- Right-operand family where only the NoIn restriction is inherited:
used for the assignment right-hand side, the conditional branches and the
comma operator (the NoBF rules there recurse into the ordinary rules). -/
def carryNoIn (v : Variant) : Variant :=
  match v with
  | .noIn => .noIn
  | _ => .plain

/-- Results of statement-level and list-level parsers. -/
abbrev VRes := Except ParseError (Val × List PTok)

/-- Results of expression-level parsers; the Bool records whether the
expression is still reducible as a bare LeftHandSideExpression, which is
what the assignment alternative requires of its left operand. -/
abbrev ERes := Except ParseError (Val × Bool × List PTok)

/-- Left-associative binary operator chain shared by the expression level
rules: given the reduced left operand, repeatedly consume one of the level
operators and a right operand, combining with the level's semantic action
(ast.BinOp for the levels whose action assigns p[0], the constant None for
the levels whose three-symbol alternative leaves p[0] unassigned). -/
def parseBinTail (rightP : List PTok → ERes) (ops : List String)
    (mk : String → Val → Val → Val) : Nat → Val → Bool → List PTok → ERes
  | 0, _, _, _ => .error .outOfFuel
  | Nat.succ fuel, e, flg, ts =>
    match ts with
    | t :: rest =>
      if ops.contains t.tok.type then
        match rightP rest with
        | .error er => .error er
        | .ok (r, _, ts') => parseBinTail rightP ops mk fuel (mk t.tok.value e r) false ts'
      else .ok (e, flg, ts)
    | [] => .ok (e, flg, ts)

mutual

/-- p_PrimaryExpression / p_PrimaryExpressionNoObj: the NoBF family uses
the NoObj variant, which has no ObjectLiteral alternative. -/
def parsePrimaryExpression : Nat → Variant → List PTok → VRes
  | 0, _, _ => .error .outOfFuel
  | Nat.succ fuel, v, ts =>
    match ts with
    | [] => .error (failAt [])
    | t :: rest =>
      let ty := t.tok.type
      if ty == "THIS" then .ok (.str t.tok.value, rest)
      else if ty == "ID" then .ok (.Identifier t.tok.value, rest)
      else if ty == "NULL" then .ok (.none, rest)
      else if ty == "TRUE" || ty == "FALSE" then .ok (.Boolean t.tok.value, rest)
      else if ty == "NUMBER_LITERAL" then .ok (.Number t.tok.value, rest)
      else if ty == "STRING_LITERAL" then .ok (.StringNode t.tok.value, rest)
      else if ty == "REGEX" then .ok (.none, rest)
      else if ty == "LPAREN" then do
        let (e, ts) ← parseExpression fuel .plain rest
        let (_, ts) ← expectType "RPAREN" ts
        .ok (e, ts)
      else if ty == "LBRACKET" then parseArrayLiteral fuel rest
      else if ty == "LBRACE" && !(v == Variant.noBF) then parseObjectLiteral fuel rest
      else .error (failAt ts)

/-- p_ArrayLiteral with p_ElementList and p_Elision: none of their actions
assigns p[0], so the produced value is None. -/
def parseArrayLiteral : Nat → List PTok → VRes
  | 0, _ => .error .outOfFuel
  | Nat.succ fuel, ts =>
    match ts with
    | [] => .error (failAt [])
    | t :: rest =>
      if t.tok.type == "RBRACKET" then .ok (.none, rest)
      else if t.tok.type == "COMMA" then parseArrayLiteral fuel rest
      else do
        let (_, ts) ← parseAssignmentExpression fuel .plain ts
        parseArrayLiteral fuel ts

/-- p_ObjectLiteral, entered after the opening brace. -/
def parseObjectLiteral : Nat → List PTok → VRes
  | 0, _ => .error .outOfFuel
  | Nat.succ fuel, ts =>
    if headIs ts "RBRACE" then .ok (.Object (.list []), ts.drop 1)
    else do
      let (props, ts) ← parsePropertyNameAndValueList fuel ts
      let ts := if headIs ts "COMMA" then ts.drop 1 else ts
      let (_, ts) ← expectType "RBRACE" ts
      .ok (.Object (.list props), ts)

/-- p_PropertyNameAndValueList: comma-separated property assignments; a
comma followed by the closing brace belongs to the trailing-comma
alternative of p_ObjectLiteral. -/
def parsePropertyNameAndValueList : Nat → List PTok → Except ParseError (List Val × List PTok)
  | 0, _ => .error .outOfFuel
  | Nat.succ fuel, ts => do
    let (p, ts) ← parsePropertyAssignment fuel ts
    match ts with
    | c :: (n :: _) =>
      if c.tok.type == "COMMA" && !(n.tok.type == "RBRACE") then do
        let (ps, ts') ← parsePropertyNameAndValueList fuel (ts.drop 1)
        .ok (p :: ps, ts')
      else .ok ([p], ts)
    | _ => .ok ([p], ts)

/-- p_PropertyAssignment, colon alternative only: the GET and SET
alternatives mention terminals no lexer rule produces.  The action builds
ast.Assign with the colon text as operator. -/
def parsePropertyAssignment : Nat → List PTok → VRes
  | 0, _ => .error .outOfFuel
  | Nat.succ fuel, ts =>
    match ts with
    | [] => .error (failAt [])
    | t :: rest =>
      let nameRes : VRes :=
        if t.tok.type == "ID" then .ok (.Identifier t.tok.value, rest)
        else if t.tok.type == "STRING_LITERAL" then .ok (.StringNode t.tok.value, rest)
        else if t.tok.type == "NUMBER_LITERAL" then .ok (.Number t.tok.value, rest)
        else .error (failAt ts)
      match nameRes with
      | .error e => .error e
      | .ok (name, ts) => do
        let (ctok, ts) ← expectType "COLON" ts
        let (e, ts) ← parseAssignmentExpression fuel .plain ts
        .ok (.Assign name ctok.value e, ts)

/-- p_FunctionDeclaration.  Its action is ast.FuncDecl(p[1], p[4], p[7]):
the first constructor argument is the FUNCTION keyword's text, not the
declared Identifier p[2]. -/
def parseFunctionDeclaration : Nat → List PTok → VRes
  | 0, _ => .error .outOfFuel
  | Nat.succ fuel, ts => do
    let (ftok, ts) ← expectType "FUNCTION" ts
    let (_, ts) ← expectType "ID" ts
    let (_, ts) ← expectType "LPAREN" ts
    let (params, ts) ← parseFormalParameterListOpt fuel ts
    let (_, ts) ← expectType "RPAREN" ts
    let (_, ts) ← expectType "LBRACE" ts
    let (body, ts) ← parseFunctionBody fuel ts
    let (_, ts) ← expectType "RBRACE" ts
    .ok (.FuncDecl (.str ftok.value) params body, ts)

/-- p_FunctionExpression: the eight-symbol form always applies (the
optional identifier is its own symbol), so FuncDecl(p[2], p[4], p[7]). -/
def parseFunctionExpression : Nat → List PTok → VRes
  | 0, _ => .error .outOfFuel
  | Nat.succ fuel, ts => do
    let (_, ts) ← expectType "FUNCTION" ts
    let (idv, ts) :=
      match ts with
      | i :: r2 => if i.tok.type == "ID" then (Val.Identifier i.tok.value, r2) else (Val.none, ts)
      | [] => (Val.none, ts)
    let (_, ts) ← expectType "LPAREN" ts
    let (params, ts) ← parseFormalParameterListOpt fuel ts
    let (_, ts) ← expectType "RPAREN" ts
    let (_, ts) ← expectType "LBRACE" ts
    let (body, ts) ← parseFunctionBody fuel ts
    let (_, ts) ← expectType "RBRACE" ts
    .ok (.FuncDecl idv params body, ts)

/-- p_FormalParameterList (or its empty option): identifiers separated by
commas, accumulated in source order. -/
def parseFormalParameterListOpt : Nat → List PTok → Except ParseError (Val × List PTok)
  | 0, _ => .error .outOfFuel
  | Nat.succ fuel, ts =>
    if headIs ts "ID" then do
      let (xs, ts) ← parseFormalParameterListTail fuel [] ts
      .ok (.list xs, ts)
    else .ok (.none, ts)

/-- Accumulator loop of p_FormalParameterList. -/
def parseFormalParameterListTail : Nat → List Val → List PTok → Except ParseError (List Val × List PTok)
  | 0, _, _ => .error .outOfFuel
  | Nat.succ fuel, acc, ts => do
    let (idtok, ts) ← expectType "ID" ts
    let acc := acc ++ [Val.Identifier idtok.value]
    if headIs ts "COMMA" then parseFormalParameterListTail fuel acc (ts.drop 1)
    else .ok (acc, ts)

/-- p_FunctionBody: SourceElements_opt, no normalisation. -/
def parseFunctionBody : Nat → List PTok → VRes
  | 0, _ => .error .outOfFuel
  | Nat.succ fuel, ts =>
    if headIs ts "RBRACE" || ts.isEmpty then .ok (.none, ts)
    else do
      let (els, ts) ← parseSourceElements fuel ts
      .ok (.list els, ts)

/-- p_MemberExpression / p_MemberExpressionNoBF and p_NewExpression.  The
returned Bool tells whether the value is a MemberExpression (so call
suffixes may follow) or only a NewExpression.  In the new-with-arguments
case the ordinary action leaves p[0] unassigned (None) while the NoBF
action builds ast.New; without arguments both build ast.New(identifier)
whose arguments default to the empty list. -/
def parseMemberExpression : Nat → Variant → List PTok → ERes
  | 0, _, _ => .error .outOfFuel
  | Nat.succ fuel, v, ts =>
    match ts with
    | t :: rest =>
      if t.tok.type == "NEW" then do
        let (inner, isMember, ts) ← parseMemberExpression fuel .plain rest
        if isMember && headIs ts "LPAREN" then do
          let (args, ts) ← parseArguments fuel ts
          let base := if v == Variant.noBF then newInit inner args else Val.none
          let (m, ts) ← parseMemberTail fuel base ts
          .ok (m, true, ts)
        else
          .ok (newInit inner Val.none, false, ts)
      else do
        let (base, ts) ←
          (if t.tok.type == "FUNCTION" && !(v == Variant.noBF) then
            parseFunctionExpression fuel ts
          else parsePrimaryExpression fuel v ts)
        let (m, ts) ← parseMemberTail fuel base ts
        .ok (m, true, ts)
    | [] => .error (failAt [])

/-- Bracket and dot suffixes of p_MemberExpression: both semantic actions
build ast.ElementGet(node, element). -/
def parseMemberTail : Nat → Val → List PTok → VRes
  | 0, _, _ => .error .outOfFuel
  | Nat.succ fuel, cur, ts =>
    if headIs ts "LBRACKET" then do
      let (e, ts) ← parseExpression fuel .plain (ts.drop 1)
      let (_, ts) ← expectType "RBRACKET" ts
      parseMemberTail fuel (.ElementGet cur e) ts
    else if headIs ts "PERIOD" then do
      let (idtok, ts) ← expectType "ID" (ts.drop 1)
      parseMemberTail fuel (.ElementGet cur (.Identifier idtok.value)) ts
    else .ok (cur, ts)

/-- p_LeftHandSideExpression: a NewExpression, or a CallExpression when a
MemberExpression is followed by Arguments. -/
def parseLeftHandSideExpression : Nat → Variant → List PTok → VRes
  | 0, _, _ => .error .outOfFuel
  | Nat.succ fuel, v, ts => do
    let (m, isMember, ts) ← parseMemberExpression fuel v ts
    if isMember && headIs ts "LPAREN" then do
      let (args, ts) ← parseArguments fuel ts
      parseCallTail fuel (.FuncCall m args) ts
    else .ok (m, ts)

/-- Suffixes of p_CallExpression: further Arguments build ast.FuncCall
(the two-symbol alternative); the bracket and dot alternatives leave p[0]
unassigned, so the value degrades to None. -/
def parseCallTail : Nat → Val → List PTok → VRes
  | 0, _, _ => .error .outOfFuel
  | Nat.succ fuel, cur, ts =>
    if headIs ts "LPAREN" then do
      let (args, ts) ← parseArguments fuel ts
      parseCallTail fuel (.FuncCall cur args) ts
    else if headIs ts "LBRACKET" then do
      let (_, ts) ← parseExpression fuel .plain (ts.drop 1)
      let (_, ts) ← expectType "RBRACKET" ts
      parseCallTail fuel Val.none ts
    else if headIs ts "PERIOD" then do
      let (_, ts) ← expectType "ID" (ts.drop 1)
      parseCallTail fuel Val.none ts
    else .ok (cur, ts)

/-- p_Arguments: an empty pair of parentheses leaves p[0] unassigned
(None); otherwise the argument list. -/
def parseArguments : Nat → List PTok → VRes
  | 0, _ => .error .outOfFuel
  | Nat.succ fuel, ts => do
    let (_, ts) ← expectType "LPAREN" ts
    if headIs ts "RPAREN" then .ok (.none, ts.drop 1)
    else do
      let (args, ts) ← parseArgumentList fuel [] ts
      let (_, ts) ← expectType "RPAREN" ts
      .ok (.list args, ts)

/-- p_ArgumentList: assignment expressions separated by commas,
accumulated in source order. -/
def parseArgumentList : Nat → List Val → List PTok → Except ParseError (List Val × List PTok)
  | 0, _, _ => .error .outOfFuel
  | Nat.succ fuel, acc, ts => do
    let (e, ts) ← parseAssignmentExpression fuel .plain ts
    let acc := acc ++ [e]
    if headIs ts "COMMA" then parseArgumentList fuel acc (ts.drop 1)
    else .ok (acc, ts)

/-- p_PostfixExpression / p_PostfixExpressionNoBF: the postfix alternatives
accept only INCR_NO_LT and DECR_NO_LT, and their action builds
ast.UnaryOp(operator=p[3], ...) although the slice has three slots, so
reducing either alternative raises IndexError. -/
def parsePostfixExpression : Nat → Variant → List PTok → ERes
  | 0, _, _ => .error .outOfFuel
  | Nat.succ fuel, v, ts => do
    let (e, ts) ← parseLeftHandSideExpression fuel v ts
    if headIs ts "INCR_NO_LT" || headIs ts "DECR_NO_LT" then .error .indexError
    else .ok (e, true, ts)

/-- p_UnaryExpression: a postfix expression, or p_UnaryExpressionCommon
building a prefix ast.UnaryOp over a plain UnaryExpression. -/
def parseUnaryExpression : Nat → Variant → List PTok → ERes
  | 0, _, _ => .error .outOfFuel
  | Nat.succ fuel, v, ts =>
    match ts with
    | t :: rest =>
      if unaryOpTypes.contains t.tok.type then do
        let (u, _, ts) ← parseUnaryExpression fuel .plain rest
        .ok (.UnaryOp t.tok.value u false, false, ts)
      else parsePostfixExpression fuel v ts
    | [] => .error (failAt [])

/-- p_MultiplicativeExpression: BinOp chain; the NoBF right operands are
plain UnaryExpressions. -/
def parseMultiplicativeExpression : Nat → Variant → List PTok → ERes
  | 0, _, _ => .error .outOfFuel
  | Nat.succ fuel, v, ts => do
    let (e, flg, ts) ← parseUnaryExpression fuel v ts
    parseBinTail (fun u => parseUnaryExpression fuel .plain u)
      ["TIMES", "DIVIDE", "MOD"] (fun op l r => .BinOp op l r) fuel e flg ts

/-- p_AdditiveExpression: BinOp chain over multiplicative operands. -/
def parseAdditiveExpression : Nat → Variant → List PTok → ERes
  | 0, _, _ => .error .outOfFuel
  | Nat.succ fuel, v, ts => do
    let (e, flg, ts) ← parseMultiplicativeExpression fuel v ts
    parseBinTail (fun u => parseMultiplicativeExpression fuel .plain u)
      ["PLUS", "MINUS"] (fun op l r => .BinOp op l r) fuel e flg ts

/-- p_ShiftExpression: only the single-symbol alternative assigns p[0], so
a shift chain produces None. -/
def parseShiftExpression : Nat → Variant → List PTok → ERes
  | 0, _, _ => .error .outOfFuel
  | Nat.succ fuel, v, ts => do
    let (e, flg, ts) ← parseAdditiveExpression fuel v ts
    parseBinTail (fun u => parseAdditiveExpression fuel .plain u)
      ["LSHIFT", "RSHIFT", "URSHIFT"] (fun _ _ _ => Val.none) fuel e flg ts

/-- p_RelationalExpression and its NoIn / NoBF families.  The NoIn family
has no IN alternative and starts from a plain ShiftExpression; only the
ordinary family's action builds BinOp (the NoIn and NoBF actions assign
p[0] in the single-symbol alternative only). -/
def parseRelationalExpression : Nat → Variant → List PTok → ERes
  | 0, _, _ => .error .outOfFuel
  | Nat.succ fuel, v, ts => do
    let (e, flg, ts) ← parseShiftExpression fuel
      (if v == Variant.noIn then Variant.plain else v) ts
    parseBinTail (fun u => parseShiftExpression fuel .plain u)
      (if v == Variant.noIn then ["GT", "LT", "GE", "LE", "INSTANCEOF"]
       else ["GT", "LT", "GE", "LE", "INSTANCEOF", "IN"])
      (if v == Variant.plain then (fun op l r => .BinOp op l r) else (fun _ _ _ => Val.none))
      fuel e flg ts

/-- p_EqualityExpression: no alternative with an operator assigns p[0];
the NoBF family recurses into NoIn right operands. -/
def parseEqualityExpression : Nat → Variant → List PTok → ERes
  | 0, _, _ => .error .outOfFuel
  | Nat.succ fuel, v, ts => do
    let (e, flg, ts) ← parseRelationalExpression fuel v ts
    parseBinTail (fun u => parseRelationalExpression fuel (rightNoIn v) u)
      ["EQ", "NE", "EQT", "NET"] (fun _ _ _ => Val.none) fuel e flg ts

/-- p_BitwiseANDExpression: BinOp chain; NoBF right operands are NoIn. -/
def parseBitwiseANDExpression : Nat → Variant → List PTok → ERes
  | 0, _, _ => .error .outOfFuel
  | Nat.succ fuel, v, ts => do
    let (e, flg, ts) ← parseEqualityExpression fuel v ts
    parseBinTail (fun u => parseEqualityExpression fuel (rightNoIn v) u)
      ["AND"] (fun op l r => .BinOp op l r) fuel e flg ts

/-- p_BitwiseXORExpression: BinOp chain; NoBF right operands are NoIn. -/
def parseBitwiseXORExpression : Nat → Variant → List PTok → ERes
  | 0, _, _ => .error .outOfFuel
  | Nat.succ fuel, v, ts => do
    let (e, flg, ts) ← parseBitwiseANDExpression fuel v ts
    parseBinTail (fun u => parseBitwiseANDExpression fuel (rightNoIn v) u)
      ["XOR"] (fun op l r => .BinOp op l r) fuel e flg ts

/-- p_BitwiseORExpression: BinOp chain; NoBF right operands are NoIn. -/
def parseBitwiseORExpression : Nat → Variant → List PTok → ERes
  | 0, _, _ => .error .outOfFuel
  | Nat.succ fuel, v, ts => do
    let (e, flg, ts) ← parseBitwiseXORExpression fuel v ts
    parseBinTail (fun u => parseBitwiseXORExpression fuel (rightNoIn v) u)
      ["OR"] (fun op l r => .BinOp op l r) fuel e flg ts

/-- p_LogicalANDExpression: BinOp chain; NoBF right operands are NoIn. -/
def parseLogicalANDExpression : Nat → Variant → List PTok → ERes
  | 0, _, _ => .error .outOfFuel
  | Nat.succ fuel, v, ts => do
    let (e, flg, ts) ← parseBitwiseORExpression fuel v ts
    parseBinTail (fun u => parseBitwiseORExpression fuel (rightNoIn v) u)
      ["LAND"] (fun op l r => .BinOp op l r) fuel e flg ts

/-- p_LogicalORExpression: BinOp chain; NoBF right operands are NoIn. -/
def parseLogicalORExpression : Nat → Variant → List PTok → ERes
  | 0, _, _ => .error .outOfFuel
  | Nat.succ fuel, v, ts => do
    let (e, flg, ts) ← parseLogicalANDExpression fuel v ts
    parseBinTail (fun u => parseLogicalANDExpression fuel (rightNoIn v) u)
      ["LOR"] (fun op l r => .BinOp op l r) fuel e flg ts

/-- p_ConditionalExpression: the branches are wrapped in singleton lists
by the action ast.If(expression, true=[p[3]], false=[p[5]]); the middle
branch is always a plain AssignmentExpression and the last inherits only
the NoIn restriction. -/
def parseConditionalExpression : Nat → Variant → List PTok → ERes
  | 0, _, _ => .error .outOfFuel
  | Nat.succ fuel, v, ts => do
    let (c, flg, ts) ← parseLogicalORExpression fuel v ts
    if headIs ts "CONDOP" then do
      let (tv, ts) ← parseAssignmentExpression fuel .plain (ts.drop 1)
      let (_, ts) ← expectType "COLON" ts
      let (fv, ts) ← parseAssignmentExpression fuel (carryNoIn v) ts
      .ok (.If c (.list [tv]) (.list [fv]), false, ts)
    else .ok (c, flg, ts)

/-- p_AssignmentExpression: a conditional expression, or a bare
LeftHandSideExpression followed by an assignment operator and a right
operand that inherits only the NoIn restriction. -/
def parseAssignmentExpression : Nat → Variant → List PTok → VRes
  | 0, _, _ => .error .outOfFuel
  | Nat.succ fuel, v, ts => do
    let (e, isLhs, ts) ← parseConditionalExpression fuel v ts
    match ts with
    | t :: rest =>
      if isLhs && assignmentOperators.contains t.tok.type then do
        let (rhs, ts) ← parseAssignmentExpression fuel (carryNoIn v) rest
        .ok (.Assign e t.tok.value rhs, ts)
      else .ok (e, ts)
    | [] => .ok (e, [])

/-- p_Expression: comma operator; the comma alternative leaves p[0]
unassigned, so a comma expression produces None. -/
def parseExpression : Nat → Variant → List PTok → VRes
  | 0, _, _ => .error .outOfFuel
  | Nat.succ fuel, v, ts => do
    let (e, ts) ← parseAssignmentExpression fuel v ts
    parseExpressionTail fuel v e ts

/-- Comma loop of p_Expression. -/
def parseExpressionTail : Nat → Variant → Val → List PTok → VRes
  | 0, _, _, _ => .error .outOfFuel
  | Nat.succ fuel, v, cur, ts =>
    if headIs ts "COMMA" then do
      let (_, ts) ← parseAssignmentExpression fuel (carryNoIn v) (ts.drop 1)
      parseExpressionTail fuel v Val.none ts
    else .ok (cur, ts)

/-- Expression_opt and ExpressionNoIn_opt, resolved by lookahead on the
tokens that can begin an expression. -/
def parseExpressionOpt : Nat → Variant → List PTok → VRes
  | 0, _, _ => .error .outOfFuel
  | Nat.succ fuel, v, ts =>
    if headIn ts exprFirstTypes then parseExpression fuel v ts
    else .ok (.none, ts)

/-- p_Statement: dispatch over the fifteen statement alternatives by the
next token, expression statements (the NoBF family) being the default. -/
def parseStatement : Nat → List PTok → VRes
  | 0, _ => .error .outOfFuel
  | Nat.succ fuel, ts =>
    match ts with
    | [] => .error (failAt [])
    | t :: rest =>
      let ty := t.tok.type
      if ty == "LBRACE" then parseBlock fuel ts
      else if ty == "VAR" then do
        let (decls, ts) ← parseVariableDeclarationList fuel .plain rest
        let ts ← expectSemi ts
        .ok (.list (decls.map (fun d => Val.VariableDeclaration d.1 d.2)), ts)
      else if ty == "SEMI" then .ok (.none, rest)
      else if ty == "IF" then do
        let (_, ts) ← expectType "LPAREN" rest
        let (e, ts) ← parseExpression fuel .plain ts
        let (_, ts) ← expectType "RPAREN" ts
        let (s1, ts) ← parseStatement fuel ts
        if headIs ts "ELSE" then do
          let (s2, ts) ← parseStatement fuel (ts.drop 1)
          .ok (.If e s1 s2, ts)
        else .ok (.If e s1 .none, ts)
      else if ty == "DO" then do
        let (s, ts) ← parseStatement fuel rest
        let (_, ts) ← expectType "WHILE" ts
        let (_, ts) ← expectType "LPAREN" ts
        let (e, ts) ← parseExpression fuel .plain ts
        let (_, ts) ← expectType "RPAREN" ts
        let ts ← expectSemi ts
        .ok (.DoWhile e s, ts)
      else if ty == "WHILE" then do
        let (_, ts) ← expectType "LPAREN" rest
        let (e, ts) ← parseExpression fuel .plain ts
        let (_, ts) ← expectType "RPAREN" ts
        let (s, ts) ← parseStatement fuel ts
        .ok (.While e s, ts)
      else if ty == "FOR" then parseForStatement fuel rest
      else if ty == "CONTINUE" then do
        let (idv, ts) :=
          match rest with
          | i :: r2 => if i.tok.type == "ID" then (Val.Identifier i.tok.value, r2) else (Val.none, rest)
          | [] => (Val.none, rest)
        let ts ← expectSemi ts
        .ok (.Continue idv, ts)
      else if ty == "BREAK" then do
        let (idv, ts) :=
          match rest with
          | i :: r2 => if i.tok.type == "ID" then (Val.Identifier i.tok.value, r2) else (Val.none, rest)
          | [] => (Val.none, rest)
        let ts ← expectSemi ts
        .ok (.Break idv, ts)
      else if ty == "RETURN" then do
        let (ev, ts) ← parseExpressionOpt fuel .plain rest
        let ts ← expectSemi ts
        .ok (.Return ev, ts)
      else if ty == "WITH" then do
        let (_, ts) ← expectType "LPAREN" rest
        let (e, ts) ← parseExpression fuel .plain ts
        let (_, ts) ← expectType "RPAREN" ts
        let (s, ts) ← parseStatement fuel ts
        .ok (.With e s, ts)
      else if ty == "SWITCH" then parseSwitchStatement fuel rest
      else if ty == "THROW" then do
        let (e, ts) ← parseExpression fuel .plain rest
        let ts ← expectSemi ts
        .ok (.Throw e, ts)
      else if ty == "TRY" then parseTryStatement fuel rest
      else if ty == "DEBUGGER" then do
        let ts ← expectSemi rest
        .ok (.none, ts)
      else if ty == "ID" && (match rest with
          | t2 :: _ => t2.tok.type == "COLON"
          | [] => false) then do
        let (_s, ts) ← parseStatement fuel (rest.drop 1)
        .ok (.LabelledStatement (.Identifier t.tok.value) (.str ":"), ts)
      else do
        let (e, ts) ← parseExpression fuel .noBF ts
        let ts ← expectSemi ts
        .ok (e, ts)

/-- p_Block: the value is the optional statement list itself. -/
def parseBlock : Nat → List PTok → VRes
  | 0, _ => .error .outOfFuel
  | Nat.succ fuel, ts => do
    let (_, ts) ← expectType "LBRACE" ts
    let (sl, ts) ←
      (if headIs ts "RBRACE" then (.ok (Val.none, ts) : VRes)
       else do
        let (xs, ts') ← parseStatementList fuel ts
        .ok (Val.list xs, ts'))
    let (_, ts) ← expectType "RBRACE" ts
    .ok (sl, ts)

/-- p_StatementList: one or more statements accumulated in order. -/
def parseStatementList : Nat → List PTok → Except ParseError (List Val × List PTok)
  | 0, _ => .error .outOfFuel
  | Nat.succ fuel, ts => do
    let (s, ts) ← parseStatement fuel ts
    parseStatementListTail fuel [s] ts

/-- Accumulator loop of p_StatementList, stopping where a statement list
can end (closing brace, case and default labels, end of input). -/
def parseStatementListTail : Nat → List Val → List PTok → Except ParseError (List Val × List PTok)
  | 0, _, _ => .error .outOfFuel
  | Nat.succ fuel, acc, ts =>
    if ts.isEmpty || headIn ts ["RBRACE", "CASE", "DEFAULT"] then .ok (acc, ts)
    else do
      let (s, ts) ← parseStatement fuel ts
      parseStatementListTail fuel (acc ++ [s]) ts

/-- p_VariableDeclarationList (and the NoIn family): declarations
separated by commas. -/
def parseVariableDeclarationList : Nat → Variant → List PTok → Except ParseError (List (Val × Val) × List PTok)
  | 0, _, _ => .error .outOfFuel
  | Nat.succ fuel, v, ts => do
    let (d, ts) ← parseVariableDeclaration fuel v ts
    parseVariableDeclarationListTail fuel v [d] ts

/-- Accumulator loop of p_VariableDeclarationList. -/
def parseVariableDeclarationListTail : Nat → Variant → List (Val × Val) → List PTok → Except ParseError (List (Val × Val) × List PTok)
  | 0, _, _, _ => .error .outOfFuel
  | Nat.succ fuel, v, acc, ts =>
    if headIs ts "COMMA" then do
      let (d, ts) ← parseVariableDeclaration fuel v (ts.drop 1)
      parseVariableDeclarationListTail fuel v (acc ++ [d]) ts
    else .ok (acc, ts)

/-- p_VariableDeclaration: the action builds the tuple (identifier,
initialiser); the initialiser is an AssignmentExpression of the matching
family after an equals sign, or None. -/
def parseVariableDeclaration : Nat → Variant → List PTok → Except ParseError ((Val × Val) × List PTok)
  | 0, _, _ => .error .outOfFuel
  | Nat.succ fuel, v, ts => do
    let (idtok, ts) ← expectType "ID" ts
    if headIs ts "EQUALS" then do
      let (e, ts) ← parseAssignmentExpression fuel
        (if v == Variant.noIn then Variant.noIn else Variant.plain) (ts.drop 1)
      .ok ((.Identifier idtok.value, e), ts)
    else .ok ((.Identifier idtok.value, Val.none), ts)

/-- p_IterationStatement_3 and p_IterationStatement_4, entered after FOR.
In the first for-in alternative (seven symbols, so the slice has eight
slots) the action's test len(p) == 7 is false and the else branch
evaluates p[8], raising IndexError.  In the var for-in alternative the
else branch builds ast.VariableDeclaration from the declaration tuple
p[4].  The three-clause alternatives dispatch correctly on slice
length. -/
def parseForStatement : Nat → List PTok → VRes
  | 0, _ => .error .outOfFuel
  | Nat.succ fuel, ts => do
    let (_, ts) ← expectType "LPAREN" ts
    if headIs ts "VAR" then do
      let (d, ts) ← parseVariableDeclaration fuel .noIn (ts.drop 1)
      if headIs ts "IN" then do
        let (e, ts) ← parseExpression fuel .plain (ts.drop 1)
        let (_, ts) ← expectType "RPAREN" ts
        let (s, ts) ← parseStatement fuel ts
        .ok (.ForIn (.VariableDeclaration (.tup d.1 d.2) .none) e s, ts)
      else do
        let (ds, ts) ← parseVariableDeclarationListTail fuel .noIn [d] ts
        let ts ← expectSemi ts
        let (c, ts) ← parseExpressionOpt fuel .plain ts
        let ts ← expectSemi ts
        let (i, ts) ← parseExpressionOpt fuel .plain ts
        let (_, ts) ← expectType "RPAREN" ts
        let (s, ts) ← parseStatement fuel ts
        .ok (.For (.list (ds.map (fun d => Val.VariableDeclaration d.1 d.2))) c i s, ts)
    else if headIs ts "SEMI" then do
      let (c, ts) ← parseExpressionOpt fuel .plain (ts.drop 1)
      let ts ← expectSemi ts
      let (i, ts) ← parseExpressionOpt fuel .plain ts
      let (_, ts) ← expectType "RPAREN" ts
      let (s, ts) ← parseStatement fuel ts
      .ok (.For .none c i s, ts)
    else do
      let (e, ts) ← parseExpression fuel .noIn ts
      if headIs ts "IN" then do
        let (_e2, ts) ← parseExpression fuel .plain (ts.drop 1)
        let (_, ts) ← expectType "RPAREN" ts
        let (_s, _ts) ← parseStatement fuel ts
        .error .indexError
      else do
        let ts ← expectSemi ts
        let (c, ts) ← parseExpressionOpt fuel .plain ts
        let ts ← expectSemi ts
        let (i, ts) ← parseExpressionOpt fuel .plain ts
        let (_, ts) ← expectType "RPAREN" ts
        let (s, ts) ← parseStatement fuel ts
        .ok (.For e c i s, ts)

/-- p_SwitchStatement with p_CaseBlock: a default clause would reduce
p_DefaultClause, whose action calls the DefaultCase constructor with an
identifier keyword argument it does not accept, raising TypeError; without
one the case block folds into the cases list and a None default. -/
def parseSwitchStatement : Nat → List PTok → VRes
  | 0, _ => .error .outOfFuel
  | Nat.succ fuel, ts => do
    let (_, ts) ← expectType "LPAREN" ts
    let (e, ts) ← parseExpression fuel .plain ts
    let (_, ts) ← expectType "RPAREN" ts
    let (_, ts) ← expectType "LBRACE" ts
    let (cs, ts) ←
      (if headIs ts "CASE" then do
        let (xs, ts') ← parseCaseClauses fuel [] ts
        (.ok (Val.list xs, ts') : VRes)
       else (.ok (Val.none, ts) : VRes))
    if headIs ts "DEFAULT" then .error .typeError
    else do
      let (_, ts) ← expectType "RBRACE" ts
      .ok (switchInit e cs .none, ts)

/-- p_CaseClauses with p_CaseClause: case labels with optional statement
lists. -/
def parseCaseClauses : Nat → List Val → List PTok → Except ParseError (List Val × List PTok)
  | 0, _, _ => .error .outOfFuel
  | Nat.succ fuel, acc, ts => do
    let (_, ts) ← expectType "CASE" ts
    let (e, ts) ← parseExpression fuel .plain ts
    let (_, ts) ← expectType "COLON" ts
    let (sl, ts) ←
      (if ts.isEmpty || headIn ts ["CASE", "DEFAULT", "RBRACE"] then (.ok (Val.none, ts) : VRes)
       else do
        let (xs, ts') ← parseStatementList fuel ts
        (.ok (Val.list xs, ts') : VRes))
    let acc := acc ++ [Val.Case e sl]
    if headIs ts "CASE" then parseCaseClauses fuel acc ts
    else .ok (acc, ts)

/-- p_TryStatement_1 and p_TryStatement_2, entered after TRY. -/
def parseTryStatement : Nat → List PTok → VRes
  | 0, _ => .error .outOfFuel
  | Nat.succ fuel, ts => do
    let (b, ts) ← parseBlock fuel ts
    if headIs ts "CATCH" then do
      let (c, ts) ← parseCatch fuel ts
      if headIs ts "FINALLY" then do
        let (f, ts) ← parseFinally fuel ts
        .ok (.Try b c f, ts)
      else .ok (.Try b c .none, ts)
    else if headIs ts "FINALLY" then do
      let (f, ts) ← parseFinally fuel ts
      .ok (.Try b .none f, ts)
    else .error (failAt ts)

/-- p_Catch. -/
def parseCatch : Nat → List PTok → VRes
  | 0, _ => .error .outOfFuel
  | Nat.succ fuel, ts => do
    let (_, ts) ← expectType "CATCH" ts
    let (_, ts) ← expectType "LPAREN" ts
    let (idtok, ts) ← expectType "ID" ts
    let (_, ts) ← expectType "RPAREN" ts
    let (b, ts) ← parseBlock fuel ts
    .ok (.Catch (.Identifier idtok.value) b, ts)

/-- p_Finally. -/
def parseFinally : Nat → List PTok → VRes
  | 0, _ => .error .outOfFuel
  | Nat.succ fuel, ts => do
    let (_, ts) ← expectType "FINALLY" ts
    let (b, ts) ← parseBlock fuel ts
    .ok (.Finally b, ts)

/-- p_SourceElement: a FunctionDeclaration when the next token is
FUNCTION (the NoBF family keeps expression statements from starting with
one), a Comment when the next token is one of the comment terminals, and
otherwise a Statement. -/
def parseSourceElement : Nat → List PTok → VRes
  | 0, _ => .error .outOfFuel
  | Nat.succ fuel, ts =>
    match ts with
    | [] => .error (failAt [])
    | t :: rest =>
      if t.tok.type == "FUNCTION" then parseFunctionDeclaration fuel ts
      else if isCommentType t.tok.type then
        if t.tok.type == "COMMENT" then .ok (.LineComment t.tok.value, rest)
        else .ok (.BlockComment t.tok.value, rest)
      else parseStatement fuel ts

/-- p_SourceElements: one or more source elements accumulated in order. -/
def parseSourceElements : Nat → List PTok → Except ParseError (List Val × List PTok)
  | 0, _ => .error .outOfFuel
  | Nat.succ fuel, ts => do
    let (s, ts) ← parseSourceElement fuel ts
    parseSourceElementsTail fuel [s] ts

/-- Accumulator loop of p_SourceElements; it ends at end of input or at a
closing brace (the end of a function body). -/
def parseSourceElementsTail : Nat → List Val → List PTok → Except ParseError (List Val × List PTok)
  | 0, _, _ => .error .outOfFuel
  | Nat.succ fuel, acc, ts =>
    if ts.isEmpty || headIs ts "RBRACE" then .ok (acc, ts)
    else do
      let (s, ts) ← parseSourceElement fuel ts
      parseSourceElementsTail fuel (acc ++ [s]) ts

end

/-- p_Program: Program(SourceElements_opt), the constructor normalising a
missing statement list to the empty list.  Leftover tokens after the
source elements are a grammar error. -/
def parseProgram : Nat → List PTok → Except ParseError Val
  | _, [] => .ok (programInit .none)
  | 0, _ :: _ => .error .outOfFuel
  | Nat.succ fuel, ts =>
    match parseSourceElements fuel ts with
    | .error e => .error e
    | .ok (els, ts') =>
      match ts' with
      | [] => .ok (programInit (.list els))
      | u => .error (failAt u)

/-- The grammar engine of the written productions, had ply.yacc accepted
the grammar: tokenize, run the token proxy, parse a Program.  The fuel
bounds the recursion depth and is ample for the input length.  This is an
analysis device for the productions and semantic actions as written in
parser.py; the program itself never reaches this point, because
Parser.__init__ fails (see buildParser below), so parseAsBuilt is not the
behaviour of Parser.parse — parse below is. -/
def parseAsBuilt (s : String) : Except ParseError Val :=
  match tokenize s with
  | .error e => .error e
  | .ok raw => parseProgram (s.data.length + 100) (emitTokens Option.none raw)

/-- Terminal symbols referenced by the production docstrings of parser.py,
in order of first appearance.  Uppercase symbols with no p_ rule are
terminals to ply.yacc; the built-in error symbol (p_auto_semicolon) is
excluded because yacc always defines it. -/
def grammarTerminals : List String :=
  ["COMMENT", "BLOCK_COMMENT", "ID", "NULL", "TRUE", "FALSE",
   "NUMBER_LITERAL", "STRING_LITERAL", "REGEX", "THIS", "LPAREN", "RPAREN",
   "LBRACKET", "RBRACKET", "COMMA", "LBRACE", "RBRACE", "COLON", "GET",
   "SET", "PERIOD", "NEW", "INCR_NO_LT", "DECR_NO_LT", "DELETE", "VOID",
   "TYPEOF", "INCR", "DECR", "PLUS", "MINUS", "NOT", "LNOT", "TIMES",
   "DIVIDE", "MOD", "LSHIFT", "RSHIFT", "URSHIFT", "GT", "LT", "GE", "LE",
   "INSTANCEOF", "IN", "EQ", "NE", "EQT", "NET", "AND", "XOR", "OR",
   "LAND", "LOR", "CONDOP", "EQUALS", "TIMES_EQUALS", "DIVIDE_EQUALS",
   "MOD_EQUALS", "PLUS_EQUALS", "MINUS_EQUALS", "LSHIFT_EQUALS",
   "RSHIFT_EQUALS", "URSHIFT_EQUALS", "AND_EQUALS", "XOR_EQUALS",
   "OR_EQUALS", "VAR", "SEMI", "IF", "ELSE", "DO", "WHILE", "FOR",
   "CONTINUE", "BREAK", "RETURN", "WITH", "SWITCH", "CASE", "DEFAULT",
   "THROW", "TRY", "CATCH", "FINALLY", "DEBUGGER", "FUNCTION"]

/-- The token list handed to ply.yacc: Parser.__init__ sets self.tokens to
the lexer's, and Lexer._prepare_tokens prepends the keywords to the tokens
tuple of lexer.py (which ends with the regex-state token types RE_BODY and
RE_END).  GET and SET are commented out of the keywords tuple, and the
comment token types are LINE_COMMENT and BLOCK_COMMENT, not COMMENT; no
REGEX type exists. -/
def declaredTokens : List String :=
  keywordsMap.map Prod.snd ++
  ["ID", "LINE_COMMENT", "BLOCK_COMMENT", "LINE_TERMINATOR",
   "LBRACE", "RBRACE", "LPAREN", "RPAREN", "LBRACKET", "RBRACKET",
   "PERIOD", "SEMI", "COMMA", "LT", "GT", "LE", "GE", "EQ", "NE", "EQT",
   "NET", "PLUS", "MINUS", "TIMES", "MOD", "INCR", "DECR", "LSHIFT",
   "RSHIFT", "URSHIFT", "AND", "OR", "XOR", "LNOT", "NOT", "LAND", "LOR",
   "CONDOP", "COLON", "EQUALS", "PLUS_EQUALS", "MINUS_EQUALS",
   "TIMES_EQUALS", "MOD_EQUALS", "LSHIFT_EQUALS", "RSHIFT_EQUALS",
   "URSHIFT_EQUALS", "AND_EQUALS", "OR_EQUALS", "XOR_EQUALS", "DIVIDE",
   "DIVIDE_EQUALS", "INCR_NO_LT", "DECR_NO_LT", "STRING_LITERAL",
   "NUMBER_LITERAL", "RE_BODY", "RE_END"]

/-- Grammar symbols used in productions but defined neither as a token nor
by a rule.  ply.yacc.yacc logs, for each, the error Symbol used but not
defined as a token or a rule, and then aborts. -/
def undefinedGrammarSymbols : List String :=
  grammarTerminals.filter (fun t => !(declaredTokens.contains t))

/-- ply.yacc.yacc as invoked by Parser.__init__ (parser.py line 49): the
grammar is accepted only if every symbol of every production is defined;
otherwise YaccError is raised and the Parser object is never constructed. -/
def buildParser : Except ParseError Unit :=
  if undefinedGrammarSymbols.isEmpty then .ok ()
  else .error (.yaccError "Unable to build parser")

/-- Parser() followed by Parser.parse(input): constructing the parser runs
ply.yacc.yacc, which fails on this grammar, so every call errors before
the input is even examined. -/
def parse (s : String) : Except ParseError Val :=
  match buildParser with
  | .error e => .error e
  | .ok _ => parseAsBuilt s

/-! Supporting lemmas. -/

/-- Whitespace characters in the sense of the empty-program claim: the
characters skipped by t_ignore plus the line terminator characters. -/
def isWsChar (c : Char) : Bool := c == ' ' || c == '\t' || c == '\n' || c == '\r'

theorem lookupKw_result (l : List (String × String)) (s : String) :
    lookupKw l s = "ID" ∨ lookupKw l s ∈ l.map Prod.snd := by
  induction l with
  | nil => left; rfl
  | cons kv rest ih =>
    rw [lookupKw]
    by_cases h : (s == kv.1) = true
    · rw [if_pos h]
      right
      rw [List.map_cons]
      exact List.mem_cons_self _ _
    · rw [if_neg h]
      rcases ih with h1 | h1
      · left; exact h1
      · right
        rw [List.map_cons]
        exact List.mem_cons_of_mem _ h1

theorem findPunct_snd (tbl : List (String × String)) (l : List Char)
    (lex ty : String) (r : List Char) (h : findPunct tbl l = some (lex, ty, r)) :
    ty ∈ tbl.map Prod.snd := by
  induction tbl with
  | nil => simp [findPunct] at h
  | cons e rest ih =>
    obtain ⟨elex, ety⟩ := e
    rw [findPunct] at h
    by_cases he : (l.take elex.data.length == elex.data) = true
    · rw [if_pos he] at h
      simp only [Option.some.injEq, Prod.mk.injEq] at h
      rw [List.map_cons]
      exact h.2.1 ▸ List.mem_cons_self _ _
    · rw [if_neg he] at h
      rw [List.map_cons]
      exact List.mem_cons_of_mem _ (ih h)

theorem ws_isPySpace (c : Char) (h : isWsChar c = true) : isPySpace c = true := by
  simp only [isWsChar, Bool.or_eq_true, beq_iff_eq] at h
  rcases h with ((h | h) | h) | h <;> subst h <;> decide

theorem ws_not_ignore_newline (c : Char) (h : isWsChar c = true)
    (h2 : ¬ isIgnoreChar c = true) : isNewlineChar c = true := by
  simp only [isWsChar, Bool.or_eq_true, beq_iff_eq] at h
  rcases h with ((h | h) | h) | h <;> subst h
  · exact absurd (by decide) h2
  · exact absurd (by decide) h2
  · decide
  · decide

theorem dropWhile_head_false {p : Char → Bool} :
    ∀ (l : List Char) (c : Char) (r : List Char), l.dropWhile p = c :: r → p c = false := by
  intro l
  induction l with
  | nil => intro c r h; simp [List.dropWhile] at h
  | cons d rest ih =>
    intro c r h
    rw [List.dropWhile_cons] at h
    by_cases hd : p d = true
    · rw [if_pos hd] at h; exact ih c r h
    · rw [if_neg hd] at h
      injection h with h1 h2
      subst h1
      simpa using hd

theorem emitTokens_no_skip :
    ∀ (raw : List LexToken) (prev : Option LexToken) (pt : PTok),
      pt ∈ emitTokens prev raw → skipTypes.contains pt.tok.type = false := by
  intro raw
  induction raw with
  | nil => intro prev pt h; cases prev <;> simp [emitTokens] at h
  | cons t rest ih =>
    intro prev pt h
    cases prev with
    | none =>
      rw [emitTokens] at h
      by_cases hs : skipTypes.contains t.type = true
      · rw [if_pos hs] at h; exact ih (some t) pt h
      · rw [if_neg hs] at h
        rcases List.mem_cons.mp h with h1 | h1
        · subst h1; exact Bool.eq_false_iff.mpr hs
        · exact ih (some t) pt h1
    | some p =>
      rw [emitTokens] at h
      by_cases hs : skipTypes.contains t.type = true
      · rw [if_pos hs] at h
        by_cases hp : asiPrevTypes.contains p.type = true
        · rw [if_pos hp] at h
          rcases List.mem_cons.mp h with h1 | h1
          · subst h1; rfl
          · exact ih (some t) pt h1
        · rw [if_neg hp] at h; exact ih (some t) pt h
      · rw [if_neg hs] at h
        rcases List.mem_cons.mp h with h1 | h1
        · subst h1; exact Bool.eq_false_iff.mpr hs
        · exact ih (some t) pt h1

theorem lookupKw_keywords_ne_comment (s : String) : lookupKw keywordsMap s ≠ "COMMENT" := by
  rcases lookupKw_result keywordsMap s with hk | hk
  · rw [hk]; decide
  · intro hc
    rw [hc] at hk
    revert hk
    decide

theorem findPunct_ne_comment (l : List Char) (lex ty : String) (r : List Char)
    (h : findPunct punctuators l = some (lex, ty, r)) : ty ≠ "COMMENT" := by
  intro hc
  have hm := findPunct_snd punctuators l lex ty r h
  rw [hc] at hm
  revert hm
  decide

/-- No rule of the lexer produces a token whose type is COMMENT, the
terminal expected by p_SingleLineComment. -/
theorem rawNextCore_not_comment (input : List Char) (pos : Nat) (t : LexToken)
    (rest : List Char) (p' : Nat)
    (h : rawNextCore input pos = .ok (some (t, rest, p'))) : t.type ≠ "COMMENT" := by
  match input with
  | [] => simp [rawNextCore] at h
  | c :: cs =>
    rw [rawNextCore.eq_def] at h
    simp only [] at h
    repeat' split at h
    all_goals simp only [Except.ok.injEq, Option.some.injEq, Prod.mk.injEq, reduceCtorEq,
      false_and] at h
    all_goals (rcases h with ⟨h1, -, -⟩; rw [← h1]; simp only [ne_eq])
    all_goals try simp
    all_goals try exact lookupKw_keywords_ne_comment _
    all_goals exact findPunct_ne_comment _ _ _ _ (by assumption)

theorem rawNext_not_comment (input : List Char) (pos : Nat) (t : LexToken)
    (rest : List Char) (p' : Nat)
    (h : rawNext input pos = .ok (some (t, rest, p'))) : t.type ≠ "COMMENT" :=
  rawNextCore_not_comment _ _ _ _ _ h

theorem tokenizeAux_not_comment :
    ∀ (fuel : Nat) (input : List Char) (pos : Nat) (toks : List LexToken),
      tokenizeAux fuel input pos = .ok toks → ∀ t ∈ toks, t.type ≠ "COMMENT" := by
  intro fuel
  induction fuel with
  | zero => intro input pos toks h; simp [tokenizeAux] at h
  | succ n ih =>
    intro input pos toks h
    rw [tokenizeAux] at h
    cases hr : rawNext input pos with
    | error e => rw [hr] at h; simp at h
    | ok o =>
      rw [hr] at h
      cases o with
      | none =>
        simp only [Except.ok.injEq] at h
        subst h
        intro u hu
        simp at hu
      | some trp =>
        obtain ⟨t, rest, pos'⟩ := trp
        simp only [] at h
        cases ht : tokenizeAux n rest pos' with
        | error e => rw [ht] at h; simp at h
        | ok ts =>
          rw [ht] at h
          simp only [Except.ok.injEq] at h
          subst h
          intro u hu
          rcases List.mem_cons.mp hu with h1 | h1
          · subst h1; exact rawNext_not_comment input pos u rest pos' hr
          · exact ih rest pos' ts ht u h1

theorem tokenize_not_comment (s : String) (toks : List LexToken)
    (h : tokenize s = .ok toks) : ∀ t ∈ toks, t.type ≠ "COMMENT" :=
  tokenizeAux_not_comment _ _ _ _ h

/-- If no raw token has type COMMENT, no delivered token does either (the
synthetic SEMI of rule A has type SEMI). -/
theorem emitTokens_not_comment :
    ∀ (raw : List LexToken), (∀ t ∈ raw, t.type ≠ "COMMENT") →
      ∀ (prev : Option LexToken) (pt : PTok), pt ∈ emitTokens prev raw →
        pt.tok.type ≠ "COMMENT" := by
  intro raw
  induction raw with
  | nil => intro _ prev pt h; cases prev <;> simp [emitTokens] at h
  | cons t rest ih =>
    intro hr prev pt h
    have hrest : ∀ u ∈ rest, u.type ≠ "COMMENT" :=
      fun u hu => hr u (List.mem_cons_of_mem t hu)
    cases prev with
    | none =>
      rw [emitTokens] at h
      by_cases hs : skipTypes.contains t.type = true
      · rw [if_pos hs] at h; exact ih hrest (some t) pt h
      · rw [if_neg hs] at h
        rcases List.mem_cons.mp h with h1 | h1
        · subst h1; exact hr t (List.mem_cons_self t rest)
        · exact ih hrest (some t) pt h1
    | some p =>
      rw [emitTokens] at h
      by_cases hs : skipTypes.contains t.type = true
      · rw [if_pos hs] at h
        by_cases hp : asiPrevTypes.contains p.type = true
        · rw [if_pos hp] at h
          rcases List.mem_cons.mp h with h1 | h1
          · subst h1; simp [createSemicolonToken]
          · exact ih hrest (some t) pt h1
        · rw [if_neg hp] at h; exact ih hrest (some t) pt h
      · rw [if_neg hs] at h
        rcases List.mem_cons.mp h with h1 | h1
        · subst h1; exact hr t (List.mem_cons_self t rest)
        · exact ih hrest (some t) pt h1

/-- On whitespace-only input every raw token is a line terminator. -/
theorem tokenizeAux_ws :
    ∀ (fuel : Nat) (l : List Char) (pos : Nat),
      (∀ c ∈ l, isWsChar c = true) → l.length < fuel →
      ∃ toks, tokenizeAux fuel l pos = .ok toks ∧
        ∀ t ∈ toks, t.type = "LINE_TERMINATOR" := by
  intro fuel
  induction fuel with
  | zero => intro l pos hws hlen; exact absurd hlen (Nat.not_lt_zero _)
  | succ n ih =>
    intro l pos hws hlen
    cases hd : l.dropWhile isIgnoreChar with
    | nil =>
      refine ⟨[], ?_, by intro t ht; simp at ht⟩
      rw [tokenizeAux]
      have hrn : rawNext l pos = .ok Option.none := by
        simp only [rawNext]
        rw [hd]
        rfl
      rw [hrn]
    | cons c r =>
      have hcl : c ∈ l :=
        (List.dropWhile_sublist isIgnoreChar).subset (hd ▸ List.mem_cons_self c r)
      have hcw : isWsChar c = true := hws c hcl
      have hcig : isIgnoreChar c = false := dropWhile_head_false l c r hd
      have hcnl : isNewlineChar c = true :=
        ws_not_ignore_newline c hcw (by simp [hcig])
      have hsubl : ∀ x ∈ c :: r, x ∈ l :=
        fun x hx => (List.dropWhile_sublist isIgnoreChar).subset (hd ▸ hx)
      have hr1ws : ∀ x ∈ (c :: r).dropWhile isNewlineChar, isWsChar x = true :=
        fun x hx => hws x (hsubl x ((List.dropWhile_sublist isNewlineChar).subset hx))
      have hr2 : ((c :: r).dropWhile isNewlineChar).dropWhile isPySpace = [] :=
        List.dropWhile_eq_nil_iff.mpr (fun x hx => ws_isPySpace x (hr1ws x hx))
      have hrn : rawNext l pos = .ok (some
          ({ type := "LINE_TERMINATOR", value := String.mk ((c :: r).takeWhile isNewlineChar), lineno := 1 + ((c :: r).takeWhile isNewlineChar).length, lexpos := pos + (l.takeWhile isIgnoreChar).length },
            (c :: r).dropWhile isNewlineChar,
            pos + (l.takeWhile isIgnoreChar).length + ((c :: r).takeWhile isNewlineChar).length)) := by
        simp only [rawNext]
        rw [hd, rawNextCore.eq_def]
        simp only []
        rw [if_pos hcnl, hr2]
      have hlen' : ((c :: r).dropWhile isNewlineChar).length < n := by
        have h1 : ((c :: r).dropWhile isNewlineChar).length ≤ r.length := by
          rw [List.dropWhile_cons, if_pos hcnl]
          exact (List.dropWhile_sublist isNewlineChar).length_le
        have h2 : (c :: r).length ≤ l.length := by
          rw [← hd]
          exact (List.dropWhile_sublist isIgnoreChar).length_le
        simp only [List.length_cons] at h2
        omega
      obtain ⟨toks', hih, hall⟩ :=
        ih ((c :: r).dropWhile isNewlineChar)
          (pos + (l.takeWhile isIgnoreChar).length + ((c :: r).takeWhile isNewlineChar).length)
          hr1ws hlen'
      refine ⟨{ type := "LINE_TERMINATOR", value := String.mk ((c :: r).takeWhile isNewlineChar), lineno := 1 + ((c :: r).takeWhile isNewlineChar).length, lexpos := pos + (l.takeWhile isIgnoreChar).length } :: toks', ?_, ?_⟩
      · rw [tokenizeAux, hrn]
        simp only []
        rw [hih]
      · intro t ht
        rcases List.mem_cons.mp ht with h1 | h1
        · subst h1; rfl
        · exact hall t h1

/-- On a stream of line terminators the token proxy delivers nothing,
provided the previous token is absent or is no continue / break / return /
throw keyword. -/
theorem emitTokens_lt_nil :
    ∀ (raw : List LexToken), (∀ t ∈ raw, t.type = "LINE_TERMINATOR") →
      ∀ (prev : Option LexToken),
        (prev = Option.none ∨ ∃ p, prev = some p ∧ asiPrevTypes.contains p.type = false) →
        emitTokens prev raw = [] := by
  intro raw
  induction raw with
  | nil => intro _ prev _; cases prev <;> rfl
  | cons t rest ih =>
    intro hr prev hprev
    have ht : t.type = "LINE_TERMINATOR" := hr t (List.mem_cons_self t rest)
    have hs : skipTypes.contains t.type = true := by rw [ht]; rfl
    have hrest : ∀ u ∈ rest, u.type = "LINE_TERMINATOR" :=
      fun u hu => hr u (List.mem_cons_of_mem t hu)
    have hnext : asiPrevTypes.contains t.type = false := by rw [ht]; rfl
    rcases hprev with h0 | ⟨p, hp, hpc⟩
    · subst h0
      rw [emitTokens, if_pos hs]
      exact ih hrest (some t) (Or.inr ⟨t, rfl, hnext⟩)
    · subst hp
      rw [emitTokens, if_pos hs, if_neg (by rw [hpc]; simp)]
      exact ih hrest (some t) (Or.inr ⟨t, rfl, hnext⟩)

/-- p_Program on the empty token stream, at any fuel. -/
theorem parseProgram_nil (fuel : Nat) :
    parseProgram fuel [] = .ok (programInit .none) := by
  cases fuel <;> rfl

/-- The undefined grammar symbols, computed from the terminals the
productions use and the declared token list: COMMENT (p_SingleLineComment),
REGEX (p_RegularExpressionLiteral) and GET / SET (p_PropertyAssignment). -/
theorem undefinedGrammarSymbols_eq :
    undefinedGrammarSymbols = ["COMMENT", "REGEX", "GET", "SET"] := by rfl

/-- Parser construction always fails with YaccError, so Parser.parse
errors on every input before examining it. -/
theorem parse_yaccError (s : String) :
    parse s = .error (.yaccError "Unable to build parser") := rfl

/-! Claim theorems. -/

/-- C1: the program never parses the end-to-end input — Parser.__init__
raises YaccError because the productions use the undeclared symbols
COMMENT, REGEX, GET and SET, so no AST is ever produced.  The grammar as
written would moreover bind the FuncDecl name slot to the keyword text
"function" (p_FunctionDeclaration passes p[1], the FUNCTION token, instead
of the Identifier p[2]) and wrap the variable declaration in a singleton
list, while the rest of the claimed structure (parameters a and b, one
return of a plus BinOp on a and b, the call of f with arguments 1 and 2 in
order) matches. -/
theorem C1_e2e_program :
    parse "function f(a,b)\x7breturn a+b;\x7d\nvar r = f(1,2);" =
      .error (.yaccError "Unable to build parser")
    ∧ parseAsBuilt "function f(a,b)\x7breturn a+b;\x7d\nvar r = f(1,2);" =
      .ok (.Program (.list
        [.FuncDecl (.str "function")
            (.list [.Identifier "a", .Identifier "b"])
            (.list [.Return (.BinOp "+" (.Identifier "a") (.Identifier "b"))]),
         .list [.VariableDeclaration (.Identifier "r")
            (.FuncCall (.Identifier "f")
              (.list [.Number "1", .Number "2"]))]])) :=
  ⟨parse_yaccError _, rfl⟩

/-- C2: the automatic-semicolon layer (which ply.lex does build) emits a
synthetic SEMI exactly when end of input is reached, the offending token
is a closing brace, or the raw token before it was a line terminator, and
when it rescues a real token it queues that token for re-delivery; but the
program never parses the P2 example as two statements — Parser() raises
YaccError first.  The grammar as written would have produced the two
variable-declaration statements. -/
theorem C2_asi_rescue :
    (∀ (st : LexerProxyState) (tok : Option LexToken),
      ((auto_semicolon st tok).1.isSome = true ↔
        (tok = Option.none
          ∨ (∃ t, tok = some t ∧ t.type = "RBRACE")
          ∨ prevLineTerminator st = true)))
    ∧ (∀ (st : LexerProxyState) (t : LexToken),
        (auto_semicolon st (some t)).1.isSome = true →
          (auto_semicolon st (some t)).2.next_tokens = st.next_tokens ++ [t])
    ∧ parse "var p = 1\nvar q = 2" = .error (.yaccError "Unable to build parser")
    ∧ parseAsBuilt "var p = 1\nvar q = 2" =
        .ok (.Program (.list
          [.list [.VariableDeclaration (.Identifier "p") (.Number "1")],
           .list [.VariableDeclaration (.Identifier "q") (.Number "2")]])) := by
  refine ⟨?_, ?_, parse_yaccError _, by rfl⟩
  · intro st tok
    cases tok with
    | none => simp [auto_semicolon]
    | some t =>
      by_cases h1 : t.type = "RBRACE"
      · simp [auto_semicolon, h1]
      · by_cases h2 : prevLineTerminator st = true
        · simp [auto_semicolon, h1, h2]
        · simp [auto_semicolon, h1, h2]
  · intro st t h
    unfold auto_semicolon at h ⊢
    split at h
    next hcond => rw [if_pos hcond]
    next hcond => simp at h

/-- Witness for C2 at the state reached before the second var of the P2
example: the previous raw token is a line terminator, so the offending VAR
token is rescued and queued. -/
theorem C2_asi_rescue_witness :
    (auto_semicolon
        ⟨[], some { type := "LINE_TERMINATOR", value := "\n", lineno := 2, lexpos := 9 }, Option.none⟩
        (some { type := "VAR", value := "var", lineno := 1, lexpos := 10 })).1.isSome = true
    ∧ (auto_semicolon
        ⟨[], some { type := "LINE_TERMINATOR", value := "\n", lineno := 2, lexpos := 9 }, Option.none⟩
        (some { type := "VAR", value := "var", lineno := 1, lexpos := 10 })).2.next_tokens =
      [{ type := "VAR", value := "var", lineno := 1, lexpos := 10 }] := by
  have h := C2_asi_rescue
  refine ⟨(h.1 _ _).mpr (Or.inr (Or.inr (by rfl))), ?_⟩
  have h2 := h.2.1
    ⟨[], some { type := "LINE_TERMINATOR", value := "\n", lineno := 2, lexpos := 9 }, Option.none⟩
    { type := "VAR", value := "var", lineno := 1, lexpos := 10 }
    ((h.1 _ _).mpr (Or.inr (Or.inr (by rfl))))
  simpa using h2

/-- C3: the built lexer really does turn a line break followed by a double
plus into the single token INCR_NO_LT — the only token the postfix
production accepts — so the restricted-token rule is inverted; but the P4
example is never parsed at all: the program raises YaccError at Parser().
The grammar as written would crash on it with IndexError, because the
postfix action reads p[3] of a three-slot slice. -/
theorem C3_postfix_inverted :
    tokenize "a\n++b" = .ok
      [{ type := "ID", value := "a", lineno := 1, lexpos := 0 },
       { type := "INCR_NO_LT", value := "++", lineno := 1, lexpos := 1 },
       { type := "ID", value := "b", lineno := 1, lexpos := 4 }]
    ∧ parse "a\n++b" = .error (.yaccError "Unable to build parser")
    ∧ parseAsBuilt "a\n++b" = .error .indexError :=
  ⟨rfl, parse_yaccError _, rfl⟩

/-- C4: whenever the previously delivered token is continue, break,
return or throw and the next raw token is a line terminator, the token
layer (which ply.lex does build) immediately emits a synthetic SEMI in its
place; but the P3 example never parses as anything — Parser() raises
YaccError.  The grammar as written would have produced the bare return
followed by the expression statement 100. -/
theorem C4_restricted_keyword_asi :
    (∀ (p t : LexToken) (rest : List LexToken),
        asiPrevTypes.contains p.type = true → t.type = "LINE_TERMINATOR" →
        emitTokens (some p) (t :: rest) =
          ⟨createSemicolonToken (some t), some p⟩ :: emitTokens (some t) rest)
    ∧ parse "return\n100" = .error (.yaccError "Unable to build parser")
    ∧ parseAsBuilt "return\n100" =
        .ok (.Program (.list [.Return .none, .Number "100"])) := by
  refine ⟨?_, parse_yaccError _, by rfl⟩
  intro p t rest hp ht
  rw [emitTokens, if_pos (by rw [ht]; rfl), if_pos hp]

/-- Witness for C4 with the RETURN and line terminator tokens of the P3
example. -/
theorem C4_restricted_keyword_asi_witness :
    emitTokens (some { type := "RETURN", value := "return", lineno := 1, lexpos := 0 })
        [{ type := "LINE_TERMINATOR", value := "\n", lineno := 2, lexpos := 6 }] =
      [⟨{ type := "SEMI", value := ";", lineno := 2, lexpos := 6 },
        some { type := "RETURN", value := "return", lineno := 1, lexpos := 0 }⟩] := by
  have h := C4_restricted_keyword_asi.1
    { type := "RETURN", value := "return", lineno := 1, lexpos := 0 }
    { type := "LINE_TERMINATOR", value := "\n", lineno := 2, lexpos := 6 }
    [] (by rfl) (by rfl)
  simpa [createSemicolonToken, emitTokens] using h

/-- C5: neither input is ever parsed — Parser() raises YaccError (REGEX,
one of the undeclared symbols, is itself part of the cause).  The grammar
as written would parse the divide chain as two left-associated DIVIDE
BinOps, and would reject the regex input with a SyntaxError at the slash,
because regex literals are unreachable: scan_regexp is never called and no
lexer rule produces a REGEX token. -/
theorem C5_divide_vs_regex :
    parse "a = b / c / d" = .error (.yaccError "Unable to build parser")
    ∧ parse "a = /foo/g" = .error (.yaccError "Unable to build parser")
    ∧ parseAsBuilt "a = b / c / d" =
      .ok (.Program (.list
        [.Assign (.Identifier "a") "="
          (.BinOp "/" (.BinOp "/" (.Identifier "b") (.Identifier "c"))
            (.Identifier "d"))]))
    ∧ parseAsBuilt "a = /foo/g" = .error (.syntaxError "/" 1 4) :=
  ⟨parse_yaccError _, parse_yaccError _, rfl, rfl⟩

/-- C6: neither for-header example is ever parsed — Parser() raises
YaccError.  The grammar as written would crash on the for-in input with
IndexError (the action of p_IterationStatement_4 tests len(p) == 7, never
true, and then evaluates p[8]) and would reject the three-clause input
with a SyntaxError at the double plus, because postfix increment only
accepts the inverted INCR_NO_LT token. -/
theorem C6_for_headers :
    parse "for (x in y) \x7b\x7d" = .error (.yaccError "Unable to build parser")
    ∧ parse "for (x = 1; x < y; x++) \x7b\x7d" = .error (.yaccError "Unable to build parser")
    ∧ parseAsBuilt "for (x in y) \x7b\x7d" = .error .indexError
    ∧ parseAsBuilt "for (x = 1; x < y; x++) \x7b\x7d" = .error (.syntaxError "++" 1 20) :=
  ⟨parse_yaccError _, parse_yaccError _, rfl, rfl⟩

/-- C7: the program never parses the dangling-else input — Parser() raises
YaccError.  The grammar as written (precedence IF_WITHOUT_ELSE below ELSE)
would attach the else to the nearest if: outer If with no else branch,
inner If carrying c then d. -/
theorem C7_dangling_else :
    parse "if (a) if (b) c; else d;" = .error (.yaccError "Unable to build parser")
    ∧ parseAsBuilt "if (a) if (b) c; else d;" =
      .ok (.Program (.list
        [.If (.Identifier "a")
          (.If (.Identifier "b") (.Identifier "c") (.Identifier "d"))
          .none])) :=
  ⟨parse_yaccError _, rfl⟩

/-- C8: the program fails on the P8 example with the construction-time
YaccError, which carries only a message — no token text, line or position
— and is raised before the input is examined.  The error path as written
(p_error plus auto_semicolon) would have reported the equals sign at line
1, position 4. -/
theorem C8_syntax_error_reporting :
    parse "var = ;" = .error (.yaccError "Unable to build parser")
    ∧ parseAsBuilt "var = ;" = .error (.syntaxError "=" 1 4) :=
  ⟨parse_yaccError _, rfl⟩

/-- C9: every token the proxy hands to the grammar has a type other than
LINE_TERMINATOR, LINE_COMMENT and BLOCK_COMMENT; and for every tokenized
input, no delivered token satisfies the comment-terminal test of
p_SourceElement, so the grammar's comment productions are unreachable. -/
theorem C9_no_skipped_tokens_reach_grammar :
    (∀ (prev : Option LexToken) (raw : List LexToken) (pt : PTok),
        pt ∈ emitTokens prev raw → skipTypes.contains pt.tok.type = false)
    ∧ (∀ (s : String) (raw : List LexToken) (pt : PTok),
        tokenize s = .ok raw → pt ∈ emitTokens Option.none raw →
        isCommentType pt.tok.type = false) := by
  constructor
  · intro prev raw pt h
    exact emitTokens_no_skip raw prev pt h
  · intro s raw pt htok hm
    have h1 : pt.tok.type ≠ "COMMENT" :=
      emitTokens_not_comment raw (tokenize_not_comment s raw htok) Option.none pt hm
    have h2 : skipTypes.contains pt.tok.type = false := emitTokens_no_skip raw Option.none pt hm
    have h3 : pt.tok.type ≠ "BLOCK_COMMENT" := by
      intro hc
      rw [hc] at h2
      simp [skipTypes] at h2
    simp [isCommentType, h1, h3]

/-- Witness for C9 on the one-token input a. -/
theorem C9_no_skipped_tokens_reach_grammar_witness :
    skipTypes.contains "ID" = false ∧ isCommentType "ID" = false := by
  have h := C9_no_skipped_tokens_reach_grammar
  constructor
  · exact h.1 Option.none [{ type := "ID", value := "a", lineno := 1, lexpos := 0 }]
      ⟨{ type := "ID", value := "a", lineno := 1, lexpos := 0 }, Option.none⟩ (by decide)
  · exact h.2 "a" [{ type := "ID", value := "a", lineno := 1, lexpos := 0 }]
      ⟨{ type := "ID", value := "a", lineno := 1, lexpos := 0 }, Option.none⟩ (by rfl) (by decide)

/-- C10: even the empty program is an error — Parser() raises YaccError on
every use, so no input ever succeeds.  The grammar as written would accept
any input of only blanks, tabs and line terminators (the empty string
included) with a Program whose statements list is empty, and the Program
constructor does normalise a missing statement list to the empty list. -/
theorem C10_empty_program :
    parse "" = .error (.yaccError "Unable to build parser")
    ∧ (∀ s : String, (∀ c ∈ s.data, c = ' ' ∨ c = '\t' ∨ c = '\n' ∨ c = '\r') →
        parseAsBuilt s = .ok (.Program (.list [])))
    ∧ programInit .none = .Program (.list []) := by
  refine ⟨parse_yaccError _, ?_, rfl⟩
  intro s h
  have hws : ∀ c ∈ s.data, isWsChar c = true := by
    intro c hc
    rcases h c hc with h1 | h1 | h1 | h1 <;> subst h1 <;> decide
  obtain ⟨toks, htok, hlt⟩ :=
    tokenizeAux_ws (s.data.length + 1) s.data 0 hws (Nat.lt_succ_self _)
  have hemit : emitTokens Option.none toks = [] :=
    emitTokens_lt_nil toks hlt Option.none (Or.inl rfl)
  simp only [parseAsBuilt, tokenize]
  rw [htok]
  simp only []
  rw [hemit, parseProgram_nil]
  rfl

/-- Witness for C10 on the empty string and a mixed whitespace string. -/
theorem C10_empty_program_witness :
    parseAsBuilt "" = .ok (.Program (.list []))
    ∧ parseAsBuilt " \t\n\r " = .ok (.Program (.list [])) := by
  have h := C10_empty_program
  exact ⟨h.2.1 "" (by intro c hc; simp at hc), h.2.1 " \t\n\r " (by decide)⟩

end PyJsParser
